import Mathlib

/-!
Shallow embedding of `pmyx.py`, a thin Python wrapper around the tmux
command-line binary, together with proofs about the claims of its
specification.

The wrapper's interaction with the external `tmux` process is modelled by
passing the process's textual output (an `Option String`: `none` for absent
stdout) as an explicit argument; everything downstream of that boundary is
translated directly from the Python source.  Python exceptions are modelled
with `Except PyErr`; Python values that flow through option conversion are
modelled with `PyVal`.
-/

namespace Pmyx

/-- Python exceptions that the wrapper's code paths can raise. -/
inductive PyErr where
  | nameError
  | indexError
  | attributeError
  deriving DecidableEq, Repr

/-- The Python values that flow through tmux option conversion:
booleans, `None`, integers and strings. -/
inductive PyVal where
  | pyTrue
  | pyFalse
  | pyNone
  | int (n : Int)
  | str (s : String)
  deriving DecidableEq, Repr

/-- Python `s.split(sep)` for a single-character separator, on character
lists: split at every occurrence of `sep`; splitting the empty string gives
one empty group. -/
def pySplitChar (sep : Char) : List Char → List (List Char)
  | [] => [[]]
  | c :: cs =>
    match pySplitChar sep cs with
    | [] => [[c]]
    | g :: gs => if c = sep then [] :: g :: gs else (c :: g) :: gs

/-- Python `s.split(sep)` for a single-character separator, on strings. -/
def pySplit (sep : Char) (s : String) : List String :=
  (pySplitChar sep s.toList).map String.mk

/-- Python `s.startswith(p)` for a single-character `p`. -/
def pyStartsWith (c : Char) (s : String) : Bool :=
  match s.toList with
  | [] => false
  | d :: _ => decide (d = c)

/-- Numeric value of a decimal digit character (`ord(c) - ord('0')`). -/
def digitVal (c : Char) : Nat := c.toNat - 48

/-- `int(val)` on a string of decimal digits: base-10 positional value,
accumulated left to right as Python's `int` does. -/
def pyStrToNat (s : String) : Nat :=
  s.toList.foldl (fun n c => 10 * n + digitVal c) 0

/-- Python 2 `str.isdigit`: true iff the string is non-empty and every
character is a decimal digit. -/
def py_isdigit (s : String) : Bool :=
  decide (s.length > 0) && s.toList.all Char.isDigit

/-- `TmuxObject.to_pyval` (pmyx.py lines 68-93): maps `'on'` to `True`,
`'off'` to `False`, `'none'` to `None`, digit strings to `int`s, and leaves
every other string unchanged. -/
def to_pyval (val : String) : PyVal :=
  if val = "on" then .pyTrue
  else if val = "off" then .pyFalse
  else if val = "none" then .pyNone
  else if py_isdigit val then .int (pyStrToNat val)
  else .str val

/-- `TmuxObject.to_tmuxval` (pmyx.py lines 95-111).  The integer branch of
the source reads `return str(x)` where `x` is an unbound name, so evaluating
it raises a `NameError`; the branch is therefore embedded as that error. -/
def to_tmuxval (val : PyVal) : Except PyErr String :=
  match val with
  | .pyTrue => .ok "on"
  | .pyFalse => .ok "off"
  | .pyNone => .ok "none"
  | .int _ => .error .nameError
  | .str s => .ok s

/-- `TmuxObject.to_tmuxval` as its docstring and the surrounding code intend
it (`str(val)` in the integer branch instead of the unbound `str(x)`).
Used to exhibit that the conversion round-trip is the code's intent. -/
def to_tmuxval_intended (val : PyVal) : String :=
  match val with
  | .pyTrue => "on"
  | .pyFalse => "off"
  | .pyNone => "none"
  | .int n => toString n
  | .str s => s

/-! ## TmuxCmd: flag construction and output post-processing -/

/-- The values that appear in the keyword-argument dictionaries handed to
`TmuxCmd.kwargs_to_flags`: the booleans `True`/`False` marking flag
presence, and strings carrying a flag's argument. -/
inductive FlagVal where
  | vtrue
  | vfalse
  | vstr (s : String)
  deriving DecidableEq, Repr

/-- The flag token built from a keyword-argument key (pmyx.py line 21):
`'-'+k[0] if len(k)>1 and not k.startswith('-') else k`. -/
def flag_key (k : String) : String :=
  if k.length > 1 && !(pyStartsWith '-' k) then
    String.mk ['-', k.toList.headD ' ']
  else k

/-- `TmuxCmd.kwargs_to_flags` (pmyx.py lines 9-22).  The first loop turns a
`True` value into the empty-string argument and deletes a `False` entry; the
comprehension then emits `[flag token, value]` per remaining entry, the
results are concatenated and the empty strings filtered away.  The dict is
embedded as an association list in iteration order. -/
def kwargs_to_flags (kwargs : List (String × FlagVal)) : List String :=
  ((kwargs.filterMap fun kv =>
      match kv.2 with
      | .vtrue => some (kv.1, "")
      | .vfalse => none
      | .vstr s => some (kv.1, s)).map
    (fun kv => [flag_key kv.1, kv.2])).flatten.filter
      fun x => decide (x.length > 0)

/-- The claim's wording for the key rewriting: a key of length greater than
one that does not already start with `'-'` becomes `'-'` followed by the
key's first character only; single-character keys and keys already starting
with `'-'` stay unchanged. -/
def flag_key_claim (k : String) : String :=
  if k.length > 1 && !(pyStartsWith '-' k) then
    "-" ++ String.mk (k.toList.take 1)
  else k

/-- The claim's description of `kwargs_to_flags`: drop `False` entries, turn
a `True` entry into a bare flag token with no argument, emit rewritten key
and value otherwise, and filter out all empty strings. -/
def kwargs_to_flags_claim (kwargs : List (String × FlagVal)) : List String :=
  ((kwargs.map fun kv =>
      match kv.2 with
      | .vtrue => [flag_key_claim kv.1]
      | .vfalse => []
      | .vstr s => [flag_key_claim kv.1, s]).flatten).filter
    fun x => decide (x ≠ "")

/-- Python 2 `str.strip` whitespace set: space, tab, newline, carriage
return, vertical tab, form feed. -/
def pyIsSpace (c : Char) : Bool :=
  c = ' ' || c = '\t' || c = '\n' || c = '\r' || c = Char.ofNat 11 || c = Char.ofNat 12

/-- Python `str.strip()`: remove leading and trailing whitespace. -/
def pyStrip (s : String) : String :=
  String.mk (((s.toList.dropWhile pyIsSpace).reverse.dropWhile pyIsSpace).reverse)

/-- The output post-processing of `TmuxCmd.cmd` (pmyx.py lines 28-39): the
external process's stdout (absent stdout is `none`) is mapped to `None` when
absent or empty and otherwise stripped of surrounding whitespace.  The
argv construction preceding the `communicate()` call does not affect the
returned value and the process boundary is the explicit `stdout` argument. -/
def cmd_result (stdout : Option String) : Option String :=
  match stdout with
  | none => none
  | some s => if s.length = 0 then none else some (pyStrip s)

/-! ## TmuxObject.show_options -/

/-- Association-list analogue of `dict.update({k: v})`: overwrite the entry
for `k` when present, otherwise append it. -/
def dictUpdate (d : List (String × PyVal)) (k : String) (v : PyVal) :
    List (String × PyVal) :=
  if d.any (fun kv => kv.1 == k) then
    d.map fun kv => if kv.1 == k then (k, v) else kv
  else d ++ [(k, v)]

/-- One iteration of the option-parsing loop of `TmuxObject.show_options`
(pmyx.py lines 149-155): split the line on single spaces, rejoin everything
after the first token when more than two tokens result, then read `opt[0]`
and `opt[1]`.  When the line splits into a single token, `opt[1]` raises an
`IndexError`. -/
def parse_opt_line (line : String) : Except PyErr (String × PyVal) :=
  let opt := pySplit ' ' line
  let opt := if opt.length > 2 then
      [opt.headD "", String.intercalate " " opt.tail]
    else opt
  match opt with
  | o0 :: o1 :: _ => .ok (o0, to_pyval o1)
  | _ => .error .indexError

/-- The option-parsing loop of `show_options`, accumulating into the option
dictionary and propagating the first exception. -/
def show_options_lines (d : List (String × PyVal)) :
    List String → Except PyErr (List (String × PyVal))
  | [] => .ok d
  | line :: rest =>
    match parse_opt_line line with
    | .error e => .error e
    | .ok (k, v) => show_options_lines (dictUpdate d k v) rest

/-- `TmuxObject.show_options` (pmyx.py lines 136-156), with the output of
the option-listing command (the result of `self.cmd(optionscmd, global_=g)`)
passed explicitly: an absent output yields the empty dictionary, otherwise
the output is split into lines on newlines and parsed line by line. -/
def show_options (optlist : Option String) :
    Except PyErr (List (String × PyVal)) :=
  match optlist with
  | none => .ok []
  | some s => show_options_lines [] (pySplit '\n' s)

/-- Name assigned to a line by the claim: the first space-separated token. -/
def claim_opt_name (line : String) : String := (pySplit ' ' line).headD ""

/-- Value assigned to a line by the claim: the remaining space-separated
tokens rejoined with single spaces. -/
def claim_opt_val (line : String) : PyVal :=
  to_pyval (String.intercalate " " (pySplit ' ' line).tail)

/-- The claim's description of the parsing loop of `show_options`: a total
function on the list of lines. -/
def show_options_claim_lines (d : List (String × PyVal)) :
    List String → List (String × PyVal)
  | [] => d
  | line :: rest =>
    show_options_claim_lines (dictUpdate d (claim_opt_name line) (claim_opt_val line)) rest

/-- The claim's description of `show_options`: empty dictionary on absent
output, otherwise per-line first-token/rest-of-line parsing, total on every
output. -/
def show_options_claim (optlist : Option String) : List (String × PyVal) :=
  match optlist with
  | none => []
  | some s => show_options_claim_lines [] (pySplit '\n' s)

/-- A line of option output on which the parsing loop does not raise:
splitting on single spaces yields at least two tokens, i.e. the line
contains a space. -/
def line_wf (line : String) : Bool := decide ((pySplit ' ' line).length ≥ 2)

/-- An option-listing output on which `show_options` does not raise. -/
def output_wf : Option String → Bool
  | none => true
  | some s => (pySplit '\n' s).all line_wf

/-! ## Attribute-style option access and name translation -/

/-- `attr.replace('_', '-')` (pmyx.py lines 171 and 178): a single-character
pattern replacement, i.e. a character-wise map. -/
def pyUnderToHyphen (s : String) : String :=
  String.mk (s.toList.map fun c => if c = '_' then '-' else c)

/-- `TmuxObject.normalizecmd_name` (pmyx.py lines 113-116):
`name.replace('-', '_')`, a single-character pattern replacement. -/
def normalizecmd_name (name : String) : String :=
  String.mk (name.toList.map fun c => if c = '-' then '_' else c)

/-- The claim's wording "replace every underscore in the name with a
hyphen", as an independent character recursion. -/
def replaceEveryChar (a b : Char) : List Char → List Char
  | [] => []
  | c :: cs => (if c = a then b else c) :: replaceEveryChar a b cs

/-- The option lookup at the end of `TmuxObject.__getattr__` (pmyx.py lines
182-187): the instance-level dictionary is consulted first, then the global
one, and a miss in both raises `AttributeError`. -/
def option_lookup (a : String) (instopts globalopts : List (String × PyVal)) :
    Except PyErr PyVal :=
  match instopts.lookup a with
  | some v => .ok v
  | none =>
    match globalopts.lookup a with
    | some v => .ok v
    | none => .error .attributeError

/-- `TmuxObject.__getattr__` (pmyx.py lines 174-187) at the level of the two
already-parsed option dictionaries: names starting with `'_'` raise
`AttributeError` immediately, every other name is hyphen-translated and
looked up. -/
def tmux_getattr (attr : String) (instopts globalopts : List (String × PyVal)) :
    Except PyErr PyVal :=
  if pyStartsWith '_' attr then .error .attributeError
  else option_lookup (pyUnderToHyphen attr) instopts globalopts

/-- The effect performed by `TmuxObject.__setattr__` (pmyx.py lines
167-172): either a write into the instance `__dict__` or a
`set_option` call on the hyphen-translated name with the tmux-converted
value (whose conversion may itself raise). -/
inductive SetattrEffect where
  | dictWrite (attr : String) (v : PyVal)
  | setOption (opt : String) (val : Except PyErr String)
  deriving Repr

/-- `TmuxObject.__setattr__` (pmyx.py lines 167-172). -/
def tmux_setattr (attr : String) (v : PyVal) : SetattrEffect :=
  if pyStartsWith '_' attr then .dictWrite attr v
  else .setOption (pyUnderToHyphen attr) (to_tmuxval v)

/-- A query issued to the external tmux process by an attribute read: a
`show-options` invocation, instance-level (`false`) or global (`true`). -/
inductive Query where
  | showOptions (global_ : Bool)
  deriving DecidableEq, Repr

/-- The observable outcome of one `__getattr__` call: the returned value or
exception, the queries issued to the external process in order, and the
object's `__dict__` afterwards. -/
structure GetattrTrace where
  result : Except PyErr PyVal
  log : List Query
  dict : List (String × PyVal)
  deriving Repr

/-- `TmuxObject.__getattr__` (pmyx.py lines 174-187) with the external
process modelled as an oracle answering each `show-options` query with its
output.  The two `self.show_options(...)` calls run in sequence, each
issuing one query and parsing its answer (an exception in the first parse
prevents the second query); the object's `__dict__` is threaded through
unchanged because the source never writes it on this path. -/
def getattr_full (attr : String) (oracle : Bool → Option String)
    (dict : List (String × PyVal)) : GetattrTrace :=
  if pyStartsWith '_' attr then ⟨.error .attributeError, [], dict⟩
  else
    match show_options (oracle false) with
    | .error e => ⟨.error e, [.showOptions false], dict⟩
    | .ok instopts =>
      match show_options (oracle true) with
      | .error e => ⟨.error e, [.showOptions false, .showOptions true], dict⟩
      | .ok globalopts =>
        ⟨option_lookup (pyUnderToHyphen attr) instopts globalopts,
         [.showOptions false, .showOptions true], dict⟩

/-- The `Session.name` property setter (pmyx.py lines 271-273): its body is
`rename_session(newname)`, a reference to an unbound global name (the method
is `self.rename_session`), so executing the setter raises a `NameError`.
Note that in the program this setter is dead code: `TmuxObject.__setattr__`
intercepts every attribute assignment on the class, so `session.name = x`
reaches `set_option` instead of this setter; the setter's own body, which
the claim cites, is what is embedded here. -/
def session_set_name (_newname : String) : Except PyErr Unit :=
  .error .nameError

/-! ## TmuxObject identity -/

/-- The per-object state relevant to identity: the `_name` slot of the
instance `__dict__`, and the rest of the `__dict__` (for sessions, the
command methods installed by `TmuxObject.__init__`; its exact contents
depend on live process queries via `hasattr` and are irrelevant to
equality, so it is carried abstractly). -/
structure TmuxObj where
  _name : String
  rest : List (String × String)
  deriving DecidableEq, Repr

/-- `TmuxObject.__eq__` (pmyx.py lines 124-125): `self._name == other._name`. -/
def tmux_eq (a b : TmuxObj) : Bool := a._name == b._name

/-- `Session.__init__` (pmyx.py lines 230-232): runs `TmuxObject.__init__`
(which fills the rest of the `__dict__`, here the abstract `rest` argument)
and then stores the constructor argument in `_name`. -/
def session_init (name : String) (rest : List (String × String)) : TmuxObj :=
  ⟨name, rest⟩

/-! ## Helper lemmas -/

lemma decide_length_pos (x : String) : (decide (x.length > 0)) = (decide (x ≠ "")) := by
  cases x with
  | mk data =>
    cases data with
    | nil => rfl
    | cons c cs =>
      have h1 : (String.mk (c :: cs)).length > 0 := by
        simp [String.length]
      have h2 : String.mk (c :: cs) ≠ "" := by
        intro h
        have := congrArg String.data h
        simp at this
      simp [h1, h2]

lemma flag_key_eq_claim (k : String) : flag_key k = flag_key_claim k := by
  unfold flag_key flag_key_claim
  by_cases h : (k.length > 1 && !(pyStartsWith '-' k)) = true
  · rw [if_pos h, if_pos h]
    have hlen : k.toList.length > 1 := ((Bool.and_eq_true _ _).mp h).1 |> of_decide_eq_true
    cases hd : k.toList with
    | nil => rw [hd] at hlen; simp at hlen
    | cons c cs => rfl
  · rw [if_neg h, if_neg h]

lemma intercalate_singleton (a : String) : String.intercalate " " [a] = a := by
  simp [String.intercalate, String.intercalate.go]

lemma parse_opt_line_wf (line : String) (h : line_wf line = true) :
    parse_opt_line line = .ok (claim_opt_name line, claim_opt_val line) := by
  have h2 : (pySplit ' ' line).length ≥ 2 := of_decide_eq_true h
  unfold parse_opt_line claim_opt_name claim_opt_val
  cases hs : pySplit ' ' line with
  | nil => rw [hs] at h2; simp at h2
  | cons o0 rest =>
    cases rest with
    | nil => rw [hs] at h2; simp at h2
    | cons o1 rest2 =>
      cases rest2 with
      | nil => simp [intercalate_singleton]
      | cons o2 rest3 => simp

lemma show_options_lines_wf (lines : List String) :
    ∀ d, (∀ l ∈ lines, line_wf l = true) →
      show_options_lines d lines = .ok (show_options_claim_lines d lines) := by
  induction lines with
  | nil => intro d _; rfl
  | cons line rest ih =>
    intro d h
    have hline := parse_opt_line_wf line (h line (List.mem_cons_self _ _))
    simp only [show_options_lines, show_options_claim_lines, hline]
    exact ih _ fun l hl => h l (List.mem_cons_of_mem _ hl)

lemma show_options_wf (o : Option String) (h : output_wf o = true) :
    show_options o = .ok (show_options_claim o) := by
  cases o with
  | none => rfl
  | some s =>
    have h2 : ∀ l ∈ pySplit '\n' s, line_wf l = true := by
      simpa [output_wf, List.all_eq_true] using h
    exact show_options_lines_wf _ _ h2

lemma length_eq_zero_iff (s : String) : s.length = 0 ↔ s = "" := by
  cases s with
  | mk d =>
    cases d with
    | nil => simp [String.length]
    | cons c cs =>
      constructor
      · intro h; simp [String.length] at h
      · intro h
        have := congrArg String.data h
        simp at this

lemma map_replaceEveryChar (a b : Char) (l : List Char) :
    l.map (fun c => if c = a then b else c) = replaceEveryChar a b l := by
  induction l with
  | nil => rfl
  | cons c cs ih => simp [replaceEveryChar, ih]

lemma foldl_horner (l : List Char) (a : Nat) :
    l.foldl (fun n c => 10 * n + digitVal c) a =
      Nat.ofDigits 10 ((l.map digitVal).reverse) + a * 10 ^ l.length := by
  induction l generalizing a with
  | nil => simp
  | cons c cs ih =>
    simp only [List.foldl_cons, ih, List.map_cons, List.reverse_cons, Nat.ofDigits_append,
      List.length_cons, List.length_reverse, List.length_map, Nat.ofDigits_singleton]
    ring

/-! ## Claim theorems -/

/-- C1: `TmuxCmd.kwargs_to_flags` drops every key whose value is `False`,
turns every key whose value is `True` into a bare flag token, rewrites each
key of length greater than one not already starting with `'-'` into `'-'`
followed by its first character only, leaves single-character keys and keys
already starting with `'-'` unchanged, and returns the flag and value tokens
with all empty strings filtered out. -/
theorem kwargs_to_flags_matches_claim (kwargs : List (String × FlagVal)) :
    kwargs_to_flags kwargs = kwargs_to_flags_claim kwargs := by
  have hfun : (fun x : String => decide (x.length > 0)) = (fun x => decide (x ≠ "")) :=
    funext decide_length_pos
  have hfk : flag_key_claim = flag_key := (funext flag_key_eq_claim).symm
  induction kwargs with
  | nil => rfl
  | cons kv rest ih =>
    obtain ⟨k, v⟩ := kv
    cases v with
    | vtrue =>
      simp only [kwargs_to_flags, kwargs_to_flags_claim, List.filterMap_cons, List.map_cons,
        List.flatten_cons, List.filter_append, List.filter_cons, hfun, hfk] at ih ⊢
      rw [ih]
      simp
    | vfalse =>
      simp only [kwargs_to_flags, kwargs_to_flags_claim, List.filterMap_cons, List.map_cons,
        List.flatten_cons, List.filter_append, List.filter_cons, hfun, hfk] at ih ⊢
      rw [ih]
      simp
    | vstr s =>
      simp only [kwargs_to_flags, kwargs_to_flags_claim, List.filterMap_cons, List.map_cons,
        List.flatten_cons, List.filter_append, List.filter_cons, hfun, hfk] at ih ⊢
      rw [ih]

/-- C2, counterexample: on the output `"foo"` — a line with no space —
`show_options` does not return the dictionary the claim describes: the
`opt[1]` access raises `IndexError`, so the claim as stated (first token as
name, rejoined remaining tokens as value, for every output) is false. -/
theorem show_options_claim_counterexample :
    show_options (some "foo") ≠ Except.ok (show_options_claim (some "foo")) ∧
    show_options (some "foo") = .error .indexError := by
  have h2 : show_options (some "foo") = .error .indexError := rfl
  exact ⟨by rw [h2]; exact fun hcontra => Except.noConfusion hcontra, h2⟩

/-- C2 (amended): `show_options` returns the empty dictionary when the
option-listing command produces no output; otherwise, provided every line of
the output contains a space (splits into at least two tokens), it splits the
output into lines on newlines, takes each line's first space-separated token
as the option name, rejoins the remaining tokens with single spaces as the
value, and maps the name to `to_pyval` of that value; a line with no space
instead raises `IndexError`. -/
theorem show_options_matches_claim (optlist : Option String)
    (h : output_wf optlist = true) :
    show_options optlist = .ok (show_options_claim optlist) :=
  show_options_wf optlist h

/-- Witness for C2 at a concrete two-option output. -/
theorem show_options_matches_claim_witness :
    output_wf (some "status on\nhistory-limit 2000") = true ∧
    show_options (some "status on\nhistory-limit 2000") =
      .ok (show_options_claim (some "status on\nhistory-limit 2000")) :=
  ⟨by decide, show_options_matches_claim _ (by decide)⟩

/-- C3: for every attribute name not starting with `'_'`, `__setattr__` and
`__getattr__` replace every underscore in the name with a hyphen before
setting or looking up the option, and `normalizecmd_name` replaces every
hyphen in a command name with an underscore. -/
theorem hyphen_underscore_translation (attr : String) (v : PyVal)
    (instopts globalopts : List (String × PyVal)) (name : String)
    (h : pyStartsWith '_' attr = false) :
    tmux_setattr attr v =
      .setOption (String.mk (replaceEveryChar '_' '-' attr.toList)) (to_tmuxval v) ∧
    tmux_getattr attr instopts globalopts =
      option_lookup (String.mk (replaceEveryChar '_' '-' attr.toList)) instopts globalopts ∧
    normalizecmd_name name = String.mk (replaceEveryChar '-' '_' name.toList) := by
  refine ⟨?_, ?_, ?_⟩
  · simp [tmux_setattr, pyUnderToHyphen, h, map_replaceEveryChar]
  · simp [tmux_getattr, pyUnderToHyphen, h, map_replaceEveryChar]
  · simp [normalizecmd_name, map_replaceEveryChar]

/-- Witness for C3 at the attribute `status_bg` and the command
`list-windows`. -/
theorem hyphen_underscore_translation_witness :
    pyStartsWith '_' "status_bg" = false ∧
    (tmux_setattr "status_bg" (PyVal.str "red") =
      .setOption (String.mk (replaceEveryChar '_' '-' "status_bg".toList))
        (to_tmuxval (PyVal.str "red")) ∧
     tmux_getattr "status_bg" [] [] =
      option_lookup (String.mk (replaceEveryChar '_' '-' "status_bg".toList)) [] [] ∧
     normalizecmd_name "list-windows" =
      String.mk (replaceEveryChar '-' '_' "list-windows".toList)) :=
  ⟨by decide,
   hyphen_underscore_translation "status_bg" (PyVal.str "red") [] [] "list-windows" (by decide)⟩

/-- C4: `TmuxCmd.cmd` returns `None` exactly when the process's stdout is
absent or empty, and otherwise returns the stdout stripped of leading and
trailing whitespace. -/
theorem cmd_result_spec (stdout : Option String) :
    (cmd_result stdout = none ↔ stdout = none ∨ stdout = some "") ∧
    (∀ s : String, s ≠ "" → cmd_result (some s) = some (pyStrip s)) := by
  constructor
  · constructor
    · intro h
      cases stdout with
      | none => exact Or.inl rfl
      | some s =>
        right
        unfold cmd_result at h
        by_cases hl : s.length = 0
        · exact congrArg some ((length_eq_zero_iff s).mp hl)
        · simp [hl] at h
    · intro h
      rcases h with h | h <;> subst h <;> rfl
  · intro s hs
    unfold cmd_result
    have hl : ¬ s.length = 0 := fun h0 => hs ((length_eq_zero_iff s).mp h0)
    simp [hl]

/-- Witness for C4 at a concrete whitespace-padded output. -/
theorem cmd_result_spec_witness :
    (cmd_result (some " hi ") = none ↔
      (some " hi " : Option String) = none ∨ some " hi " = some "") ∧
    (" hi " : String) ≠ "" ∧ cmd_result (some " hi ") = some (pyStrip " hi ") :=
  ⟨(cmd_result_spec (some " hi ")).1, by decide,
   (cmd_result_spec (some " hi ")).2 " hi " (by decide)⟩

/-- C5: the claim says no public operation raises an error of the wrapper's
own making — but the code does: `to_tmuxval` of any integer executes
`str(x)` with `x` unbound (pmyx.py line 108) and raises `NameError`, setting
an integer-valued option attribute hits the same line, and the `Session.name`
setter calls `rename_session(newname)` without `self.` (line 273) and raises
`NameError`.  This theorem evaluates the embedded code at those inputs. -/
theorem wrapper_internal_errors :
    to_tmuxval (PyVal.int 5) = .error .nameError ∧
    tmux_setattr "history_limit" (PyVal.int 100) =
      .setOption "history-limit" (.error .nameError) ∧
    session_set_name "x" = .error .nameError :=
  ⟨rfl, rfl, rfl⟩

/-- C6: reading a non-underscore attribute returns the hyphen-translated
option from the instance options when present, else from the global options
when present, and raises `AttributeError` exactly when it appears in
neither; an underscore-prefixed name always raises `AttributeError` in
`__getattr__`. -/
theorem tmux_getattr_spec (attr : String)
    (instopts globalopts : List (String × PyVal)) :
    (pyStartsWith '_' attr = true →
      tmux_getattr attr instopts globalopts = .error .attributeError) ∧
    (pyStartsWith '_' attr = false →
      (∀ v, instopts.lookup (pyUnderToHyphen attr) = some v →
        tmux_getattr attr instopts globalopts = .ok v) ∧
      (instopts.lookup (pyUnderToHyphen attr) = none →
        ∀ v, globalopts.lookup (pyUnderToHyphen attr) = some v →
          tmux_getattr attr instopts globalopts = .ok v) ∧
      (tmux_getattr attr instopts globalopts = .error .attributeError ↔
        instopts.lookup (pyUnderToHyphen attr) = none ∧
        globalopts.lookup (pyUnderToHyphen attr) = none)) := by
  constructor
  · intro h
    simp [tmux_getattr, h]
  · intro h
    refine ⟨?_, ?_, ?_⟩
    · intro v hv
      simp [tmux_getattr, option_lookup, h, hv]
    · intro hnone v hv
      simp [tmux_getattr, option_lookup, h, hnone, hv]
    · cases hI : instopts.lookup (pyUnderToHyphen attr) with
      | some v => simp [tmux_getattr, option_lookup, h, hI]
      | none =>
        cases hG : globalopts.lookup (pyUnderToHyphen attr) with
        | some v => simp [tmux_getattr, option_lookup, h, hI, hG]
        | none => simp [tmux_getattr, option_lookup, h, hI, hG]

/-- Witness for C6: instance hit, global fallback, and the miss/underscore
`AttributeError` cases at concrete dictionaries. -/
theorem tmux_getattr_spec_witness :
    tmux_getattr "status" [("status", PyVal.pyTrue)] [] = .ok PyVal.pyTrue ∧
    tmux_getattr "status_bg" [] [("status-bg", PyVal.str "red")] =
      .ok (PyVal.str "red") ∧
    tmux_getattr "foo" [] [] = .error .attributeError ∧
    tmux_getattr "_name" [("x", PyVal.pyTrue)] [] = .error .attributeError :=
  ⟨((tmux_getattr_spec "status" [("status", PyVal.pyTrue)] []).2 (by decide)).1
      PyVal.pyTrue (by decide),
   ((tmux_getattr_spec "status_bg" [] [("status-bg", PyVal.str "red")]).2
      (by decide)).2.1 (by decide) (PyVal.str "red") (by decide),
   (((tmux_getattr_spec "foo" [] []).2 (by decide)).2.2).mpr ⟨by decide, by decide⟩,
   (tmux_getattr_spec "_name" [("x", PyVal.pyTrue)] []).1 (by decide)⟩

/-- C7, counterexample: when the instance-level option output is the
spaceless line `"foo"`, its parsing raises `IndexError` before the global
query is issued, so the read issues one query, not one per dictionary as
the claim states. -/
theorem getattr_full_claim_counterexample :
    (getattr_full "status" (fun b => if b then some "a 1" else some "foo") []).log =
      [Query.showOptions false] ∧
    [Query.showOptions false] ≠ [Query.showOptions false, Query.showOptions true] := by
  exact ⟨rfl, by decide⟩

/-- C7 (amended): the wrapper caches no option state — a read of an option
attribute consults no stored values and leaves the object's `__dict__`
unchanged, and it issues a fresh instance-options query followed, provided
the instance output parses, by a fresh global-options query. -/
theorem getattr_full_fresh_queries (attr : String) (oracle : Bool → Option String)
    (dict : List (String × PyVal)) :
    (getattr_full attr oracle dict).dict = dict ∧
    (pyStartsWith '_' attr = false → output_wf (oracle false) = true →
      (getattr_full attr oracle dict).log =
        [Query.showOptions false, Query.showOptions true]) := by
  constructor
  · unfold getattr_full
    by_cases h : pyStartsWith '_' attr = true
    · rw [if_pos h]
    · rw [if_neg h]
      cases show_options (oracle false) with
      | error e => rfl
      | ok instopts =>
        cases show_options (oracle true) with
        | error e => rfl
        | ok globalopts => rfl
  · intro h hf
    have e1 := show_options_wf (oracle false) hf
    unfold getattr_full
    rw [if_neg (by simp [h]), e1]
    cases show_options (oracle true) with
    | error e => rfl
    | ok globalopts => rfl

/-- Witness for C7 with a parseable (empty) instance output and a malformed
global output: both queries are issued all the same and the `__dict__` is
untouched. -/
theorem getattr_full_fresh_queries_witness :
    (getattr_full "status" (fun b => if b then some "foo" else none) []).dict = [] ∧
    (getattr_full "status" (fun b => if b then some "foo" else none) []).log =
      [Query.showOptions false, Query.showOptions true] :=
  ⟨(getattr_full_fresh_queries "status" (fun b => if b then some "foo" else none) []).1,
   (getattr_full_fresh_queries "status" (fun b => if b then some "foo" else none) []).2
     (by decide) (by decide)⟩

/-- C8: the claimed round-trip `to_pyval (to_tmuxval v) = v` holds for
`True`, `False` and `None`, but on every integer `to_tmuxval` raises
`NameError` (the unbound `str(x)` of pmyx.py line 108), so the round-trip
crashes on the non-negative integers; under the intended `str(val)` the
round-trip at an integer does hold, confirming the claim is the code's
intent. -/
theorem roundtrip_code_bug :
    (to_tmuxval PyVal.pyTrue).map to_pyval = .ok PyVal.pyTrue ∧
    (to_tmuxval PyVal.pyFalse).map to_pyval = .ok PyVal.pyFalse ∧
    (to_tmuxval PyVal.pyNone).map to_pyval = .ok PyVal.pyNone ∧
    to_tmuxval (PyVal.int 0) = .error .nameError ∧
    to_pyval (to_tmuxval_intended (PyVal.int 0)) = PyVal.int 0 := by
  refine ⟨rfl, rfl, rfl, rfl, ?_⟩
  decide

/-- C9: `to_pyval` is total on strings and maps `'on'` to `True`, `'off'`
to `False`, `'none'` to `None`, every non-empty all-digit string to the
integer with those decimal digits, and leaves every other string
unchanged. -/
theorem to_pyval_total_spec :
    to_pyval "on" = PyVal.pyTrue ∧
    to_pyval "off" = PyVal.pyFalse ∧
    to_pyval "none" = PyVal.pyNone ∧
    (∀ s : String, s ≠ "" → (∀ c ∈ s.toList, c.isDigit = true) →
      to_pyval s = PyVal.int (Nat.ofDigits 10 ((s.toList.map digitVal).reverse))) ∧
    (∀ s : String, s ≠ "on" → s ≠ "off" → s ≠ "none" →
      ¬(s ≠ "" ∧ ∀ c ∈ s.toList, c.isDigit = true) → to_pyval s = PyVal.str s) := by
  refine ⟨rfl, rfl, rfl, ?_, ?_⟩
  · intro s hne hdig
    have hon : s ≠ "on" := by
      rintro rfl
      have := hdig 'o' (by decide)
      simp at this
    have hoff : s ≠ "off" := by
      rintro rfl
      have := hdig 'o' (by decide)
      simp at this
    have hnone : s ≠ "none" := by
      rintro rfl
      have := hdig 'n' (by decide)
      simp at this
    have hlen : s.length ≠ 0 := fun h0 => hne ((length_eq_zero_iff s).mp h0)
    have hdigit : py_isdigit s = true := by
      unfold py_isdigit
      refine (Bool.and_eq_true _ _).mpr ⟨decide_eq_true (by omega), ?_⟩
      exact List.all_eq_true.mpr fun c hc => hdig c hc
    unfold to_pyval
    rw [if_neg hon, if_neg hoff, if_neg hnone, if_pos hdigit]
    congr 1
    unfold pyStrToNat
    rw [foldl_horner]
    norm_cast
    ring
  · intro s h1 h2 h3 h4
    cases hpd : py_isdigit s with
    | false => simp [to_pyval, h1, h2, h3, hpd]
    | true =>
      exfalso
      apply h4
      unfold py_isdigit at hpd
      obtain ⟨ha, hb⟩ := (Bool.and_eq_true _ _).mp hpd
      have hlen : s.length > 0 := of_decide_eq_true ha
      refine ⟨fun h0 => ?_, fun c hc => List.all_eq_true.mp hb c hc⟩
      rw [h0] at hlen
      simp at hlen

/-- Witness for C9 at the digit string `"42"` and the plain string
`"vi"`. -/
theorem to_pyval_total_spec_witness :
    to_pyval "42" = PyVal.int (Nat.ofDigits 10 (("42".toList.map digitVal).reverse)) ∧
    to_pyval "vi" = PyVal.str "vi" :=
  ⟨to_pyval_total_spec.2.2.2.1 "42" (by decide) (by decide),
   to_pyval_total_spec.2.2.2.2 "vi" (by decide) (by decide) (by decide) (by decide)⟩

/-- C10: `TmuxObject` equality is determined solely by `_name` — whatever
the rest of the object state, `a == b` holds iff the names agree — and two
separately constructed `Session` objects with the same name compare
equal. -/
theorem tmux_eq_name_only :
    (∀ a b : TmuxObj, tmux_eq a b = true ↔ a._name = b._name) ∧
    (∀ (n : String) (r1 r2 : List (String × String)),
      tmux_eq (session_init n r1) (session_init n r2) = true) := by
  constructor
  · intro a b
    simp [tmux_eq]
  · intro n r1 r2
    simp [tmux_eq, session_init]

end Pmyx
